import Mathlib

/-!
# Verification of the client-side job-lifecycle subsystem of `text_extractor_pro`

Shallow embedding of `src/static/js/app.js`: the selection manager
(`handleFiles`, `clearFiles`, `removeFile`), the upload coordinator
(`uploadFiles`), the active job monitor (`startJobMonitoring`,
`resetUploadUI`), the job list synchronizer (`fetchJobs`,
`updateJobsSelectively`, `updateSpecificCards`, `renderJobs`) and the
renderer (`createJobCardHTML`, `formatTimestamp`, `getStatusColor`,
`getStatusIcon`).

Modelling conventions:
* JS numbers for `progress` are embedded as `ℚ`; timestamps (`created_at`,
  wall-clock `now`) as `ℤ` milliseconds, so `new Date(x) - new Date(y)`
  is integer subtraction.
* `Math.round x` is `⌊x + 1/2⌋` (JS rounds half toward +∞).
* JS strings are `String`; the falsiness test `job.message ? _ : _` is
  `message ≠ ""` (absent messages are embedded as `""`).
* The visible history list (`elements.historyList`) is a list of cards,
  one `(data-job-id, innerHTML)` pair per card, in document order.
* DOM visibility booleans and the alert side effects are carried as
  explicit state fields / result flags.
-/

namespace TextExtractorPro

/-- A file handle as delivered by the browser (`File`): we only need the
fields the code reads. -/
structure JsFile where
  name : String
  size : Nat
deriving Repr, DecidableEq

/-- The Job Record shape returned by the server (`/api/jobs`,
`/api/jobs/{id}/status`). -/
structure Job where
  job_id : String
  status : String
  progress : ℚ
  message : String
  created_at : Int
  total_files : Nat
deriving Repr, DecidableEq

/-- JS `Math.round`: round half toward positive infinity. -/
def jsMathRound (q : ℚ) : ℤ := ⌊q + 1/2⌋

/-- `getStatusColor` (app.js:431): fixed lookup with fallback. -/
def getStatusColor (status : String) : String :=
  if status == "pending" then "#f59e0b"
  else if status == "uploading" then "#3b82f6"
  else if status == "processing" then "#8b5cf6"
  else if status == "completed" then "#22c55e"
  else if status == "failed" then "#ef4444"
  else "#6b7280"

/-- `getStatusIcon` (app.js:442): fixed lookup with the `pending` icon as
fallback (markup abbreviated to its distinguishing core). -/
def getStatusIcon (status : String) : String :=
  if status == "uploading" then
    "<svg><path d=\"M8 2v8M4 6l4-4 4 4\"/></svg>"
  else if status == "processing" then
    "<div class=\"spinner\"></div>"
  else if status == "completed" then
    "<svg><path d=\"M3 8l3 3 7-7\"/></svg>"
  else if status == "failed" then
    "<svg><path d=\"M4 4l8 8M12 4l-8 8\"/></svg>"
  else
    "<svg><circle/><path d=\"M8 4v4l2 2\"/></svg>"

/-- `Date.prototype.toLocaleString` with the `en-US` options object
(app.js:419-428). The exact text is produced by the browser locale
machinery, outside the repository; we model it as an unspecified but
fixed injective rendering of the timestamp. -/
def localeDateString (t : Int) : String :=
  "<locale-datetime:" ++ toString t ++ ">"

/-- `formatTimestamp` (app.js:410): relative wording below one hour, else
an absolute localized date. `now` is the wall clock at render time. -/
def formatTimestamp (now : Int) (iso : Int) : String :=
  let diffMs : Int := now - iso
  let diffMins : Int := Int.fdiv diffMs 60000
  if diffMins < 1 then "Just now"
  else if diffMins < 60 then
    toString diffMins ++ " minute" ++ (if diffMins != 1 then "s" else "") ++ " ago"
  else localeDateString iso

/-- The progress block of a history card (app.js:370-377), rendered only
for `processing`/`uploading` statuses. -/
def historyProgressHTML (job : Job) : String :=
  "<div class=\"history-progress\"><div class=\"progress-bar\">" ++
  "<div class=\"progress-fill\" style=\"width: " ++
    toString (jsMathRound (job.progress * 100)) ++ "%\"></div></div>" ++
  "<span class=\"progress-text\">" ++
    toString (jsMathRound (job.progress * 100)) ++ "%</span></div>"

/-- `createJobCardHTML` (app.js:339): pure mapping Job Record → card
markup (static svg decoration abbreviated; every data-dependent part of
the template is kept). -/
def createJobCardHTML (now : Int) (job : Job) : String :=
  let statusColor := getStatusColor job.status
  let statusIcon := getStatusIcon job.status
  let canDownload := job.status == "completed"
  "<div class=\"history-card fade-in\" data-job-id=\"" ++ job.job_id ++ "\">" ++
  "<div class=\"history-header\"><div class=\"history-status\" style=\"color: " ++
    statusColor ++ "\">" ++ statusIcon ++ "<span>" ++ job.status ++ "</span></div></div>" ++
  "<div class=\"history-details\"><div class=\"history-detail\"><span>" ++
    formatTimestamp now job.created_at ++ "</span></div>" ++
  "<div class=\"history-detail\"><span>" ++ toString job.total_files ++ " file" ++
    (if job.total_files != 1 then "s" else "") ++ "</span></div></div>" ++
  (if job.status == "processing" || job.status == "uploading" then
    historyProgressHTML job
   else "") ++
  (if job.message != "" then
    "<div class=\"card-message\">" ++ job.message ++ "</div>"
   else "") ++
  "<div class=\"history-actions\">" ++
  (if canDownload then
    "<button class=\"btn-download\" onclick=\"downloadCSV(\x27" ++ job.job_id ++
      "\x27)\"><span>Download CSV</span></button>"
   else
    "<button class=\"btn-download\" disabled><span>Processing...</span></button>") ++
  "</div></div>"

/-- Which panel of the upload column is visible: the upload area
("selecting") or the processing status surface ("processing"). -/
inductive View where
  | selecting
  | processing
deriving Repr, DecidableEq

/-- The mutable client state the selection manager, upload coordinator
and active job monitor touch: `state.selectedFiles`, `state.currentJobId`
(app.js:2-7), the monitor closure's `errorCount` and interval handle
(app.js:174-177), the `setTimeout(resetUploadUI, 2000)` settle timer
(app.js:207), whether the connectivity alert fired (app.js:216), and the
transient progress display (app.js:200-203). -/
structure AppState where
  selectedFiles : List JsFile
  currentJobId : Option String
  view : View
  errorCount : Nat
  polling : Bool
  settleScheduled : Bool
  alerted : Bool
  statusTitle : String
  statusMessage : String
  progressText : String
deriving Repr, DecidableEq

/-- `resetUploadUI` (app.js:223): clear the monitoring handle and the
selection, revert the view to selecting. -/
def resetUploadUI (s : AppState) : AppState :=
  { s with currentJobId := none, selectedFiles := [], view := .selecting }

/-- JS `String.prototype.toLowerCase`, written out over the character
list so that it evaluates by structural recursion. -/
def jsToLowerCase (s : String) : String :=
  String.mk (s.data.map Char.toLower)

/-- JS `String.prototype.endsWith`, as a suffix test on the character
list. -/
def jsEndsWith (s suff : String) : Bool :=
  List.isSuffixOf suff.data s.data

/-- The filter `handleFiles` applies (app.js:78):
`file.name.toLowerCase().endsWith(".pdf")`. -/
def isPdfName (f : JsFile) : Bool :=
  jsEndsWith (jsToLowerCase f.name) ".pdf"

/-- `handleFiles` (app.js:77): keep only `.pdf`-named files; if none
remain, alert (returned boolean) and change nothing; otherwise replace
the selection with the filtered files. -/
def handleFiles (files : List JsFile) (s : AppState) : AppState × Bool :=
  let pdfFiles := files.filter isPdfName
  if pdfFiles.length == 0 then (s, true)
  else ({ s with selectedFiles := pdfFiles }, false)

/-- `removeFile` (app.js:122): splice one entry out. -/
def removeFile (index : Nat) (s : AppState) : AppState :=
  { s with selectedFiles := s.selectedFiles.eraseIdx index }

/-- `clearFiles` (app.js:127). -/
def clearFiles (s : AppState) : AppState :=
  { s with selectedFiles := [] }

/-- `uploadFiles` up to the suspension point of the upload request
(app.js:133-151): no-op on empty selection, otherwise hide the selection
UI and show the processing surface. The selection itself is left as is. -/
def uploadFilesStart (s : AppState) : AppState :=
  if s.selectedFiles.length == 0 then s
  else { s with view := .processing }

/-- `uploadFiles`, resumption on a successful response (app.js:157-161):
record the server-assigned job id and start the monitor (fresh error
count, polling timer armed). -/
def uploadFilesSuccess (s : AppState) (jobId : String) : AppState :=
  if s.selectedFiles.length == 0 then s
  else { s with view := .processing, currentJobId := some jobId,
                errorCount := 0, polling := true,
                settleScheduled := false, alerted := false }

/-- `uploadFiles`, resumption on failure (app.js:163-167): alert and
reset the upload UI. -/
def uploadFilesFailure (s : AppState) : AppState :=
  if s.selectedFiles.length == 0 then s
  else resetUploadUI { s with view := .processing }

/-- Outcome of one `GET /api/jobs/{id}/status` request as the monitor
callback observes it. -/
inductive StatusResponse where
  | ok (job : Job)
  | httpError (code : Nat)
  | networkError
deriving Repr, DecidableEq

/-- `job.status.charAt(0).toUpperCase() + job.status.slice(1)`
(app.js:200). -/
def capitalizeFirst (st : String) : String :=
  match st.data with
  | [] => ""
  | c :: cs => String.mk (Char.toUpper c :: cs)

/-- The `catch` branch of the monitor callback (app.js:209-219):
increment the consecutive-error counter; at `MAX_ERRORS = 3`, stop the
timer, surface the connectivity alert and reset the upload UI. -/
def handleMonitorError (s : AppState) : AppState :=
  let ec := s.errorCount + 1
  if 3 ≤ ec then
    resetUploadUI { s with errorCount := ec, polling := false, alerted := true }
  else
    { s with errorCount := ec }

/-- One tick of the monitor interval (app.js:177-220). -/
def monitorTick (s : AppState) (resp : StatusResponse) : AppState :=
  if s.currentJobId.isNone then { s with polling := false }
  else
    match resp with
    | .ok job =>
      let s1 := { s with errorCount := 0,
                         statusTitle := capitalizeFirst job.status,
                         statusMessage := if job.message != "" then job.message else "Processing...",
                         progressText := toString (jsMathRound (job.progress * 100)) ++ "%" }
      if job.status == "completed" || job.status == "failed" then
        { s1 with polling := false, settleScheduled := true }
      else s1
    | .httpError code =>
      if code == 404 then
        resetUploadUI { s with polling := false }
      else
        handleMonitorError s
    | .networkError => handleMonitorError s

/-- A run of the monitor over a sequence of response outcomes. -/
def monitorRun (s : AppState) (resps : List StatusResponse) : AppState :=
  resps.foldl monitorTick s

/-! ## Job List Synchronizer -/

/-- The comparison relation of the `Array.prototype.sort` call in
`renderJobs` (app.js:332-334): comparator
`new Date(b.created_at) - new Date(a.created_at)` is nonpositive exactly
when `b.created_at ≤ a.created_at`. -/
def jobBefore (a b : Job) : Prop :=
  b.created_at ≤ a.created_at

instance : DecidableRel jobBefore := fun a b =>
  inferInstanceAs (Decidable (b.created_at ≤ a.created_at))

/-- The `Array.prototype.sort` call of `renderJobs` (app.js:332-334): a
stable sort by `created_at` descending, ties keeping snapshot order.
(`Array.prototype.sort` is stable; stable sorting is extensionally
unique, so insertion sort realizes it with structural recursion.) -/
def sortJobs (jobs : List Job) : List Job :=
  List.insertionSort jobBefore jobs

/-- The history list DOM after `renderJobs` (app.js:331-337): one card
per job, sorted by `created_at` descending, each carrying its
`data-job-id` attribute and markup. -/
def renderJobsDom (now : Int) (jobs : List Job) : List (String × String) :=
  (sortJobs jobs).map (fun j => (j.job_id, createJobCardHTML now j))

/-- `status === pending || uploading || processing` (app.js:294-296). -/
def jobIsActive (j : Job) : Bool :=
  j.status == "pending" || j.status == "uploading" || j.status == "processing"

/-- The per-job change test of `updateJobsSelectively` (app.js:298-306):
active jobs compare status/progress/message, terminal jobs only status. -/
def jobChanged (oldJob newJob : Job) : Bool :=
  if jobIsActive newJob then
    oldJob.status != newJob.status ||
    oldJob.progress != newJob.progress ||
    oldJob.message != newJob.message
  else
    oldJob.status != newJob.status

/-- The comparison loop of `updateJobsSelectively` (app.js:284-307):
walk the new snapshot, look each job up in the old cache by id
(`oldJobs.find`), and collect the changed ones in snapshot order.
`none` encodes the `!oldJob` early exit that forces a full re-render. -/
def collectUpdates (oldJobs : List Job) : List Job → Option (List Job)
  | [] => some []
  | newJob :: rest =>
    match oldJobs.find? (fun j => j.job_id == newJob.job_id) with
    | none => none
    | some oldJob =>
      match collectUpdates oldJobs rest with
      | none => none
      | some upds =>
        some (if jobChanged oldJob newJob then newJob :: upds else upds)

/-- `document.querySelector` by `data-job-id` plus `replaceWith`
(app.js:318-323): replace the first card bearing the job's id; `none`
when no such card exists. -/
def replaceFirstCard (now : Int) (dom : List (String × String)) (job : Job) :
    Option (List (String × String)) :=
  match dom with
  | [] => none
  | c :: rest =>
    if c.1 == job.job_id then
      some ((job.job_id, createJobCardHTML now job) :: rest)
    else
      (replaceFirstCard now rest job).map (fun r => c :: r)

/-- `updateSpecificCards` (app.js:316-329): patch each changed card in
place; if a card is missing, fall back to a full re-render of the (by
then already replaced) cache and stop. -/
def updateSpecificCards (now : Int) (cache : List Job)
    (dom : List (String × String)) : List Job → List (String × String)
  | [] => dom
  | job :: rest =>
    match replaceFirstCard now dom job with
    | some dom1 => updateSpecificCards now cache dom1 rest
    | none => renderJobsDom now cache

/-- The synchronizer's view of the world: the client job cache
(`state.jobs`), the history list contents, and whether the empty-history
panel is the one showing. -/
structure SyncState where
  jobs : List Job
  dom : List (String × String)
  emptyShown : Bool
deriving Repr, DecidableEq

/-- `updateJobsSelectively` (app.js:262-314). Empty snapshot: show the
empty-history state and leave cache and list untouched. Changed count or
unknown id: replace the cache and fully re-render. Otherwise replace the
cache and patch exactly the changed cards. -/
def updateJobsSelectively (now : Int) (s : SyncState) (newJobs : List Job) :
    SyncState :=
  let oldJobs := s.jobs
  if newJobs.length == 0 then
    { s with emptyShown := true }
  else if !(oldJobs.length == newJobs.length) then
    { jobs := newJobs, dom := renderJobsDom now newJobs, emptyShown := false }
  else
    match collectUpdates oldJobs newJobs with
    | none =>
      { jobs := newJobs, dom := renderJobsDom now newJobs, emptyShown := false }
    | some upds =>
      { jobs := newJobs,
        dom := if 0 < upds.length then updateSpecificCards now newJobs s.dom upds
               else s.dom,
        emptyShown := false }

/-- Outcome of one `GET /api/jobs` request: a parsed snapshot
(`data.jobs || []`), or a transport/HTTP failure. -/
inductive FetchResult where
  | ok (jobs : List Job)
  | fail
deriving Repr, DecidableEq

/-- One tick of `fetchJobs` (app.js:234-254): on failure show the empty
state and skip reconciliation; on success reconcile. -/
def fetchJobsTick (now : Int) (s : SyncState) : FetchResult → SyncState
  | .ok newJobs => updateJobsSelectively now s newJobs
  | .fail => { s with emptyShown := true }

/-- A status request outcome that the monitor's `catch` branch sees: a
network error, or an HTTP error other than 404. -/
def failedStatusResponse (e : StatusResponse) : Prop :=
  e = .networkError ∨ ∃ c, c ≠ 404 ∧ e = .httpError c

/-- The record of the new snapshot carrying a given old record's id
(defaulting to the old record itself when the id is absent). Used to
state and prove the reconciliation properties. -/
def newMate (newJobs : List Job) (o : Job) : Job :=
  (newJobs.find? (fun n => n.job_id == o.job_id)).getD o

/-- Whether a job of the new snapshot counts as changed against the old
cache: look its id up and apply the per-job change test. -/
def changedAgainst (oldJobs : List Job) (n : Job) : Bool :=
  match oldJobs.find? (fun j => j.job_id == n.job_id) with
  | some o => jobChanged o n
  | none => false

instance : IsTrans Job jobBefore :=
  ⟨fun _ _ _ h1 h2 => le_trans h2 h1⟩

instance : IsTotal Job jobBefore :=
  ⟨fun a b => Int.le_total b.created_at a.created_at⟩

/-! ## Theorems -/

lemma jsMathRound_eq_round (q : ℚ) : jsMathRound q = round q := by
  rw [round_eq]; rfl

lemma monitorTick_failure (s : AppState) (jid : String)
    (h : s.currentJobId = some jid) (e : StatusResponse)
    (he : failedStatusResponse e) :
    monitorTick s e = handleMonitorError s := by
  rcases he with rfl | ⟨c, hc, rfl⟩
  · simp [monitorTick, h]
  · simp [monitorTick, h, beq_iff_eq, hc]

lemma handleMonitorError_below (s : AppState) (hlt : s.errorCount + 1 < 3) :
    handleMonitorError s = { s with errorCount := s.errorCount + 1 } := by
  simp [handleMonitorError, Nat.not_le.mpr hlt]

lemma handleMonitorError_at_threshold (s : AppState)
    (hge : 3 ≤ s.errorCount + 1) :
    handleMonitorError s =
      { s with errorCount := s.errorCount + 1, polling := false,
               alerted := true, currentJobId := none, selectedFiles := [],
               view := .selecting } := by
  simp [handleMonitorError, hge, resetUploadUI]

/-- Claim C4: a 404 on a status request — at any point, including the
very first tick — stops the monitor immediately, reverts the view to
selecting, and clears the monitoring handle, without touching the
consecutive-error counter, the settle timer or the alert flag. -/
theorem monitor_404_stops_immediately (s : AppState) (jid : String)
    (h : s.currentJobId = some jid) :
    (monitorTick s (.httpError 404)).polling = false ∧
    (monitorTick s (.httpError 404)).view = .selecting ∧
    (monitorTick s (.httpError 404)).currentJobId = none ∧
    (monitorTick s (.httpError 404)).errorCount = s.errorCount ∧
    (monitorTick s (.httpError 404)).settleScheduled = s.settleScheduled ∧
    (monitorTick s (.httpError 404)).alerted = s.alerted := by
  simp [monitorTick, h, resetUploadUI]

/-- Closed instance of `monitor_404_stops_immediately` at a fresh
monitoring state (first request). -/
theorem monitor_404_stops_immediately_witness :
    (monitorTick ⟨[⟨"a.pdf", 7⟩], some "job-1", .processing, 0, true, false, false, "", "", ""⟩
        (.httpError 404)).polling = false ∧
    (monitorTick ⟨[⟨"a.pdf", 7⟩], some "job-1", .processing, 0, true, false, false, "", "", ""⟩
        (.httpError 404)).view = .selecting ∧
    (monitorTick ⟨[⟨"a.pdf", 7⟩], some "job-1", .processing, 0, true, false, false, "", "", ""⟩
        (.httpError 404)).currentJobId = none ∧
    (monitorTick ⟨[⟨"a.pdf", 7⟩], some "job-1", .processing, 0, true, false, false, "", "", ""⟩
        (.httpError 404)).errorCount = 0 ∧
    (monitorTick ⟨[⟨"a.pdf", 7⟩], some "job-1", .processing, 0, true, false, false, "", "", ""⟩
        (.httpError 404)).settleScheduled = false ∧
    (monitorTick ⟨[⟨"a.pdf", 7⟩], some "job-1", .processing, 0, true, false, false, "", "", ""⟩
        (.httpError 404)).alerted = false :=
  monitor_404_stops_immediately _ "job-1" rfl

/-- Claim C3: failed status requests (other than 404) increment the
consecutive-error counter, successes reset it to zero, and the
stop-polling/notice/revert teardown happens exactly when the counter
reaches 3; two failures followed by a success never trigger it. -/
theorem monitor_error_counter_policy :
    (∀ (s : AppState) (jid : String) (e : StatusResponse),
        s.currentJobId = some jid → failedStatusResponse e →
        (monitorTick s e).errorCount = s.errorCount + 1) ∧
    (∀ (s : AppState) (jid : String) (job : Job),
        s.currentJobId = some jid →
        (monitorTick s (.ok job)).errorCount = 0) ∧
    (∀ (s : AppState) (jid : String) (e : StatusResponse),
        s.currentJobId = some jid → s.polling = true → failedStatusResponse e →
        (((monitorTick s e).polling = false) ↔ 3 ≤ s.errorCount + 1) ∧
        (((monitorTick s e).alerted = true) ↔ (s.alerted = true ∨ 3 ≤ s.errorCount + 1)) ∧
        (3 ≤ s.errorCount + 1 → (monitorTick s e).view = .selecting)) ∧
    (∀ (s : AppState) (jid : String) (job : Job),
        s.currentJobId = some jid → s.polling = true → s.errorCount = 0 →
        s.alerted = false →
        job.status ≠ "completed" → job.status ≠ "failed" →
        (monitorRun s [.networkError, .networkError, .ok job]).alerted = false ∧
        (monitorRun s [.networkError, .networkError, .ok job]).polling = true) := by
  refine ⟨?_, ?_, ?_, ?_⟩
  · intro s jid e h he
    rw [monitorTick_failure s jid h e he]
    by_cases hth : 3 ≤ s.errorCount + 1
    · rw [handleMonitorError_at_threshold s hth]
    · rw [handleMonitorError_below s (Nat.not_le.mp hth)]
  · intro s jid job h
    simp only [monitorTick, h, Option.isNone_some, Bool.false_eq_true, if_false]
    split <;> rfl
  · intro s jid e h hp he
    rw [monitorTick_failure s jid h e he]
    by_cases hth : 3 ≤ s.errorCount + 1
    · rw [handleMonitorError_at_threshold s hth]
      simp [hth]
    · rw [handleMonitorError_below s (Nat.not_le.mp hth)]
      simp [hth, hp]
  · intro s jid job h hp he ha hnc hnf
    have hfail : failedStatusResponse .networkError := Or.inl rfl
    have step1 : monitorTick s .networkError = { s with errorCount := 1 } := by
      rw [monitorTick_failure s jid h _ hfail,
          handleMonitorError_below s (by omega)]
      simp [he]
    have step2 : monitorTick { s with errorCount := 1 } .networkError =
        { s with errorCount := 2 } := by
      rw [monitorTick_failure { s with errorCount := 1 } jid (by simpa using h) _ hfail,
          handleMonitorError_below _ (by simp)]
    have hterm : (job.status == "completed" || job.status == "failed") = false := by
      simp [beq_iff_eq, hnc, hnf]
    simp only [monitorRun, List.foldl, step1, step2]
    simp [monitorTick, h, hterm, ha, hp]

/-- Closed instance of `monitor_error_counter_policy`: two network
failures followed by a successful `processing` response leave the
monitor polling, unalerted. -/
theorem monitor_error_counter_policy_witness :
    (monitorRun ⟨[], some "job-2", .processing, 0, true, false, false, "", "", ""⟩
        [.networkError, .networkError, .ok ⟨"job-2", "processing", 0, "", 0, 1⟩]).alerted
      = false ∧
    (monitorRun ⟨[], some "job-2", .processing, 0, true, false, false, "", "", ""⟩
        [.networkError, .networkError, .ok ⟨"job-2", "processing", 0, "", 0, 1⟩]).polling
      = true :=
  monitor_error_counter_policy.2.2.2
    ⟨[], some "job-2", .processing, 0, true, false, false, "", "", ""⟩ "job-2"
    ⟨"job-2", "processing", 0, "", 0, 1⟩ rfl rfl rfl rfl
    (by decide) (by decide)

lemma jsMathRound_half : jsMathRound ((1:ℚ)/2 * 100) = 50 := by
  norm_num [jsMathRound]

lemma jsMathRound_999 : jsMathRound ((999:ℚ)/1000 * 100) = 100 := by
  norm_num [jsMathRound]

/-- Claim C9: both the monitor's transient display and the history
card's progress block show `round(progress * 100)` — rounding to
nearest, not truncation — so `0.5` shows `50%` and `0.999` shows
`100%`. -/
theorem progress_display_rounding :
    (∀ (s : AppState) (jid : String) (job : Job), s.currentJobId = some jid →
      (monitorTick s (.ok job)).progressText
        = toString (round (job.progress * 100)) ++ "%") ∧
    (∀ job : Job, ∃ pre post : String,
      historyProgressHTML job
        = pre ++ (toString (round (job.progress * 100)) ++ ("%" ++ post))) ∧
    (∀ (s : AppState) (jid : String) (job : Job), s.currentJobId = some jid →
      job.progress = 1/2 →
      (monitorTick s (.ok job)).progressText = "50%") ∧
    (∀ (s : AppState) (jid : String) (job : Job), s.currentJobId = some jid →
      job.progress = 999/1000 →
      (monitorTick s (.ok job)).progressText = "100%") := by
  have hdisp : ∀ (s : AppState) (jid : String) (job : Job),
      s.currentJobId = some jid →
      (monitorTick s (.ok job)).progressText
        = toString (jsMathRound (job.progress * 100)) ++ "%" := by
    intro s jid job h
    simp only [monitorTick, h, Option.isNone_some, Bool.false_eq_true, if_false]
    split <;> rfl
  refine ⟨?_, ?_, ?_, ?_⟩
  · intro s jid job h
    rw [hdisp s jid job h, jsMathRound_eq_round]
  · intro job
    refine ⟨"<div class=\"history-progress\"><div class=\"progress-bar\"><div class=\"progress-fill\" style=\"width: " ++
        toString (round (job.progress * 100)) ++
        "%\"></div></div><span class=\"progress-text\">",
      "</span></div>", ?_⟩
    rw [historyProgressHTML, jsMathRound_eq_round]
    simp [String.append_assoc]
  · intro s jid job h hprog
    rw [hdisp s jid job h, hprog, jsMathRound_half]
    rfl
  · intro s jid job h hprog
    rw [hdisp s jid job h, hprog, jsMathRound_999]
    rfl

/-- Closed instance of `progress_display_rounding`: the monitor display
for a `processing` job at `progress = 0.5` and `0.999`. -/
theorem progress_display_rounding_witness :
    (monitorTick ⟨[], some "job-3", .processing, 0, true, false, false, "", "", ""⟩
        (.ok ⟨"job-3", "processing", 1/2, "", 0, 1⟩)).progressText = "50%" ∧
    (monitorTick ⟨[], some "job-3", .processing, 0, true, false, false, "", "", ""⟩
        (.ok ⟨"job-3", "processing", 999/1000, "", 0, 1⟩)).progressText = "100%" :=
  ⟨progress_display_rounding.2.2.1
      ⟨[], some "job-3", .processing, 0, true, false, false, "", "", ""⟩ "job-3"
      ⟨"job-3", "processing", 1/2, "", 0, 1⟩ rfl rfl,
   progress_display_rounding.2.2.2
      ⟨[], some "job-3", .processing, 0, true, false, false, "", "", ""⟩ "job-3"
      ⟨"job-3", "processing", 999/1000, "", 0, 1⟩ rfl rfl⟩

/-- Counterexample to claim C7: starting an upload with a non-empty
selection does not clear the Selection Set — after `uploadFiles` hides
the upload UI and begins the request, `state.selectedFiles` still holds
the selected file. -/
theorem upload_start_keeps_selection_cex :
    (uploadFilesStart
        ⟨[⟨"invoice.pdf", 100⟩], none, .selecting, 0, false, false, false, "", "", ""⟩).selectedFiles
      ≠ [] := by
  decide

/-- Claim C7 as amended: the Selection Set survives upload start
unchanged; it is cleared on explicit clear, on `resetUploadUI`
(terminal-job-reset), and on upload failure. -/
theorem selection_clearing_sites (s : AppState) :
    (uploadFilesStart s).selectedFiles = s.selectedFiles ∧
    (clearFiles s).selectedFiles = [] ∧
    (resetUploadUI s).selectedFiles = [] ∧
    (uploadFilesFailure s).selectedFiles = [] := by
  refine ⟨?_, rfl, rfl, ?_⟩
  · unfold uploadFilesStart
    split <;> rfl
  · unfold uploadFilesFailure
    split
    · next hem =>
      simpa [List.length_eq_zero] using hem
    · rfl

/-- Claim C8: only files whose lowercased name ends in `.pdf` are
accepted; an all-invalid selection raises the user notice and performs
no state change; a pdf/txt mix keeps exactly the pdf. -/
lemma handleFiles_eq_of_valid (files : List JsFile) (s : AppState)
    (h : files.filter isPdfName ≠ []) :
    handleFiles files s = ({ s with selectedFiles := files.filter isPdfName }, false) := by
  unfold handleFiles
  simp [beq_iff_eq, List.length_eq_zero, h]

lemma handleFiles_eq_of_invalid (files : List JsFile) (s : AppState)
    (h : files.filter isPdfName = []) :
    handleFiles files s = (s, true) := by
  unfold handleFiles
  simp [h]

theorem handleFiles_validation :
    (∀ (files : List JsFile) (s : AppState),
        files.filter isPdfName ≠ [] →
        (handleFiles files s).1.selectedFiles = files.filter isPdfName ∧
        (handleFiles files s).2 = false ∧
        ∀ f ∈ (handleFiles files s).1.selectedFiles,
          f ∈ files ∧ jsEndsWith (jsToLowerCase f.name) ".pdf" = true) ∧
    (∀ (files : List JsFile) (s : AppState),
        files.filter isPdfName = [] →
        (handleFiles files s).1 = s ∧ (handleFiles files s).2 = true) ∧
    (∀ s : AppState,
        (handleFiles [⟨"report.pdf", 5⟩, ⟨"notes.txt", 3⟩] s).1.selectedFiles
          = [⟨"report.pdf", 5⟩] ∧
        (handleFiles [⟨"report.pdf", 5⟩, ⟨"notes.txt", 3⟩] s).1.selectedFiles ≠ []) := by
  refine ⟨?_, ?_, ?_⟩
  · intro files s h
    rw [handleFiles_eq_of_valid files s h]
    refine ⟨rfl, rfl, ?_⟩
    intro f hf
    have hm := List.mem_filter.mp hf
    exact ⟨hm.1, hm.2⟩
  · intro files s h
    rw [handleFiles_eq_of_invalid files s h]
    exact ⟨rfl, rfl⟩
  · intro s
    have h : ([⟨"report.pdf", 5⟩, ⟨"notes.txt", 3⟩] : List JsFile).filter isPdfName ≠ [] := by
      decide
    rw [handleFiles_eq_of_valid _ s h]
    have hfil : List.filter isPdfName [⟨"report.pdf", 5⟩, ⟨"notes.txt", 3⟩]
        = [⟨"report.pdf", 5⟩] := by decide
    refine ⟨hfil, ?_⟩
    show List.filter isPdfName [⟨"report.pdf", 5⟩, ⟨"notes.txt", 3⟩] ≠ []
    decide

/-- Closed instance of `handleFiles_validation`: an all-`.txt` selection
alerts and leaves the state untouched. -/
theorem handleFiles_validation_witness :
    (handleFiles [⟨"scan.txt", 9⟩]
        ⟨[⟨"kept.pdf", 4⟩], none, .selecting, 0, false, false, false, "", "", ""⟩).1
      = ⟨[⟨"kept.pdf", 4⟩], none, .selecting, 0, false, false, false, "", "", ""⟩ ∧
    (handleFiles [⟨"scan.txt", 9⟩]
        ⟨[⟨"kept.pdf", 4⟩], none, .selecting, 0, false, false, false, "", "", ""⟩).2
      = true :=
  handleFiles_validation.2.1 [⟨"scan.txt", 9⟩]
    ⟨[⟨"kept.pdf", 4⟩], none, .selecting, 0, false, false, false, "", "", ""⟩
    (by decide)

/-- Claim C10: a call to `handleFiles` with at least one valid file
replaces the whole selection with the newly filtered files; consecutive
adds do not accumulate. -/
theorem handleFiles_replaces_not_appends :
    ∀ (files1 files2 : List JsFile) (s : AppState),
      files2.filter isPdfName ≠ [] →
      (handleFiles files2 ((handleFiles files1 s).1)).1.selectedFiles
        = files2.filter isPdfName ∧
      ∀ f ∈ (handleFiles files2 ((handleFiles files1 s).1)).1.selectedFiles,
        f ∈ files2 := by
  intro files1 files2 s h
  rw [handleFiles_eq_of_valid files2 _ h]
  exact ⟨rfl, fun f hf => (List.mem_filter.mp hf).1⟩

/-- Closed instance of `handleFiles_replaces_not_appends`: a second
selection discards the first one's file. -/
theorem handleFiles_replaces_not_appends_witness :
    (handleFiles [⟨"new.pdf", 2⟩]
        ((handleFiles [⟨"old.pdf", 1⟩]
          ⟨[], none, .selecting, 0, false, false, false, "", "", ""⟩).1)).1.selectedFiles
      = [⟨"new.pdf", 2⟩] :=
  ((handleFiles_replaces_not_appends [⟨"old.pdf", 1⟩] [⟨"new.pdf", 2⟩]
      ⟨[], none, .selecting, 0, false, false, false, "", "", ""⟩ (by decide)).1).trans
    (by decide)

/-- Counterexample to claim C2: a successful tick whose snapshot is
empty does not replace the cache — the synchronizer shows the
empty-history panel and keeps the stale job in `state.jobs`. -/
theorem cache_empty_snapshot_cex :
    (updateJobsSelectively 0 ⟨[⟨"j1", "completed", 0, "", 0, 1⟩], [], false⟩ []).jobs
      ≠ [] := by
  decide

/-- Claim C2 as amended: a successful tick with a non-empty snapshot
replaces the cache with that snapshot unconditionally; a successful tick
with an empty snapshot leaves the cache unchanged (only the
empty-history panel is shown); a failed tick never touches the cache. -/
theorem cache_replacement_policy (now : Int) (s : SyncState) (newJobs : List Job) :
    (newJobs ≠ [] → (updateJobsSelectively now s newJobs).jobs = newJobs) ∧
    (newJobs = [] → (updateJobsSelectively now s newJobs).jobs = s.jobs) ∧
    (fetchJobsTick now s .fail).jobs = s.jobs := by
  refine ⟨?_, ?_, rfl⟩
  · intro h
    have h0 : (newJobs.length == 0) = false := by
      simp [beq_iff_eq, List.length_eq_zero, h]
    unfold updateJobsSelectively
    rw [h0]
    simp only [Bool.false_eq_true, if_false]
    split
    · rfl
    · split <;> rfl
  · rintro rfl
    rfl

/-- Closed instance of `cache_replacement_policy`: a one-job snapshot
replaces an empty cache. -/
theorem cache_replacement_policy_witness :
    (updateJobsSelectively 0 ⟨[], [], false⟩ [⟨"j9", "pending", 0, "", 5, 2⟩]).jobs
      = [⟨"j9", "pending", 0, "", 5, 2⟩] :=
  (cache_replacement_policy 0 ⟨[], [], false⟩ [⟨"j9", "pending", 0, "", 5, 2⟩]).1
    (by decide)

lemma collectUpdates_eq_none_of_missing (old : List Job) (new : List Job)
    (h : ∃ n ∈ new, ∀ o ∈ old, o.job_id ≠ n.job_id) :
    collectUpdates old new = none := by
  induction new with
  | nil => rcases h with ⟨n, hn, _⟩; cases hn
  | cons a rest ih =>
    rcases h with ⟨n, hn, hno⟩
    rcases List.mem_cons.mp hn with rfl | hmem
    · have hfind : old.find? (fun j => j.job_id == n.job_id) = none := by
        apply List.find?_eq_none.mpr
        intro o ho
        simp only [beq_iff_eq]
        exact fun hcontra => hno o ho hcontra
      simp [collectUpdates, hfind]
    · unfold collectUpdates
      rw [ih ⟨n, hmem, hno⟩]
      cases old.find? (fun j => j.job_id == a.job_id) <;> rfl

/-- Claim C5: a non-empty snapshot whose element count differs from the
cache, or that contains a job id absent from the cache, triggers a full
re-render: the cache becomes the new snapshot and the visible list is
rebuilt from it, sorted by `created_at` descending. -/
theorem shape_change_full_rerender (now : Int) (s : SyncState) (newJobs : List Job)
    (hne : newJobs ≠ [])
    (hshape : s.jobs.length ≠ newJobs.length ∨
      ∃ n ∈ newJobs, ∀ o ∈ s.jobs, o.job_id ≠ n.job_id) :
    (updateJobsSelectively now s newJobs).jobs = newJobs ∧
    (updateJobsSelectively now s newJobs).dom = renderJobsDom now newJobs := by
  have h0 : (newJobs.length == 0) = false := by
    simp [beq_iff_eq, List.length_eq_zero, hne]
  unfold updateJobsSelectively
  rw [h0]
  simp only [Bool.false_eq_true, if_false]
  by_cases hlen : s.jobs.length = newJobs.length
  · rcases hshape with hbad | hmiss
    · exact absurd hlen hbad
    · rw [collectUpdates_eq_none_of_missing s.jobs newJobs hmiss]
      simp [beq_iff_eq, hlen]
  · have : (!(s.jobs.length == newJobs.length)) = true := by
      simp [beq_iff_eq, hlen]
    rw [this]
    exact ⟨rfl, rfl⟩

/-- Closed instance of `shape_change_full_rerender`: a first job arrives
into an empty cache. -/
theorem shape_change_full_rerender_witness :
    (updateJobsSelectively 0 ⟨[], [], true⟩ [⟨"jw", "pending", 0, "", 0, 1⟩]).jobs
      = [⟨"jw", "pending", 0, "", 0, 1⟩] ∧
    (updateJobsSelectively 0 ⟨[], [], true⟩ [⟨"jw", "pending", 0, "", 0, 1⟩]).dom
      = renderJobsDom 0 [⟨"jw", "pending", 0, "", 0, 1⟩] :=
  shape_change_full_rerender 0 ⟨[], [], true⟩ [⟨"jw", "pending", 0, "", 0, 1⟩]
    (by decide) (Or.inl (by decide))

/-! ### Reconciliation infrastructure for the selective-patch path -/

lemma eq_of_mem_of_nodup_ids {l : List Job} (hnod : (l.map Job.job_id).Nodup)
    {a b : Job} (ha : a ∈ l) (hb : b ∈ l) (hid : a.job_id = b.job_id) :
    a = b := by
  induction l with
  | nil => cases ha
  | cons x rest ih =>
    rw [List.map_cons, List.nodup_cons] at hnod
    rcases List.mem_cons.mp ha with rfl | ha' <;>
      rcases List.mem_cons.mp hb with rfl | hb'
    · rfl
    · exact absurd (hid ▸ List.mem_map_of_mem Job.job_id hb') hnod.1
    · exact absurd (hid ▸ List.mem_map_of_mem Job.job_id ha') hnod.1
    · exact ih hnod.2 ha' hb'

lemma find?_eq_some_self {l : List Job} (hnod : (l.map Job.job_id).Nodup)
    {o : Job} (ho : o ∈ l) :
    l.find? (fun j => j.job_id == o.job_id) = some o := by
  induction l with
  | nil => cases ho
  | cons x rest ih =>
    rw [List.map_cons, List.nodup_cons] at hnod
    rcases List.mem_cons.mp ho with rfl | ho'
    · simp [List.find?_cons]
    · have hne : (x.job_id == o.job_id) = false := by
        simp only [beq_eq_false_iff_ne, ne_eq]
        intro hcontra
        exact hnod.1 (hcontra ▸ List.mem_map_of_mem Job.job_id ho')
      rw [List.find?_cons, hne]
      exact ih hnod.2 ho'

lemma collectUpdates_found (old new : List Job) (upds : List Job)
    (h : collectUpdates old new = some upds) :
    ∀ n ∈ new, ∃ o ∈ old, o.job_id = n.job_id := by
  induction new generalizing upds with
  | nil => intro n hn; cases hn
  | cons a rest ih =>
    intro n hn
    unfold collectUpdates at h
    rcases hfind : old.find? (fun j => j.job_id == a.job_id) with _ | o
    · rw [hfind] at h; cases h
    · rw [hfind] at h
      rcases hrest : collectUpdates old rest with _ | upds'
      · rw [hrest] at h; cases h
      · rcases List.mem_cons.mp hn with rfl | hn'
        · exact ⟨o, List.mem_of_find?_eq_some hfind,
            by simpa [beq_iff_eq] using List.find?_some hfind⟩
        · exact ih upds' hrest n hn'

lemma collectUpdates_eq_filter (old new : List Job) (upds : List Job)
    (h : collectUpdates old new = some upds) :
    upds = new.filter (changedAgainst old) := by
  induction new generalizing upds with
  | nil => cases h; rfl
  | cons a rest ih =>
    unfold collectUpdates at h
    rcases hfind : old.find? (fun j => j.job_id == a.job_id) with _ | o
    · rw [hfind] at h; cases h
    · rw [hfind] at h
      rcases hrest : collectUpdates old rest with _ | upds'
      · rw [hrest] at h; cases h
      · rw [hrest] at h
        cases h
        rw [List.filter_cons]
        have hchg : changedAgainst old a = jobChanged o a := by
          unfold changedAgainst
          rw [hfind]
        rw [hchg, ih upds' hrest]

lemma newMate_mem {new : List Job} {o : Job}
    (h : ∃ n ∈ new, n.job_id = o.job_id) :
    newMate new o ∈ new ∧ (newMate new o).job_id = o.job_id := by
  rcases h with ⟨n, hn, hid⟩
  have hsome : (new.find? (fun n => n.job_id == o.job_id)).isSome := by
    rw [List.find?_isSome]
    exact ⟨n, hn, by simp [beq_iff_eq, hid]⟩
  rcases hfind : new.find? (fun n => n.job_id == o.job_id) with _ | m
  · rw [hfind] at hsome; cases hsome
  · refine ⟨?_, ?_⟩
    · unfold newMate; rw [hfind]
      exact List.mem_of_find?_eq_some hfind
    · unfold newMate; rw [hfind]
      simpa [beq_iff_eq] using List.find?_some hfind

lemma newMate_unique {new : List Job} (hnod : (new.map Job.job_id).Nodup)
    {o n : Job} (hn : n ∈ new) (hid : n.job_id = o.job_id) :
    n = newMate new o := by
  have hm := newMate_mem ⟨n, hn, hid⟩
  exact eq_of_mem_of_nodup_ids hnod hn hm.1 (hid.trans hm.2.symm)

lemma old_ids_in_new (old new : List Job)
    (hlen : old.length = new.length)
    (hnodN : (new.map Job.job_id).Nodup)
    (hfound : ∀ n ∈ new, ∃ o ∈ old, o.job_id = n.job_id) :
    ∀ o ∈ old, ∃ n ∈ new, n.job_id = o.job_id := by
  have hsub : (new.map Job.job_id).toFinset ⊆ (old.map Job.job_id).toFinset := by
    intro x hx
    rw [List.mem_toFinset, List.mem_map] at hx
    rcases hx with ⟨n, hn, rfl⟩
    rcases hfound n hn with ⟨o, ho, hid⟩
    rw [List.mem_toFinset, List.mem_map]
    exact ⟨o, ho, hid⟩
  have hcardN : (new.map Job.job_id).toFinset.card = new.length := by
    rw [List.toFinset_card_of_nodup hnodN, List.length_map]
  have hcardO : (old.map Job.job_id).toFinset.card ≤ new.length := by
    calc (old.map Job.job_id).toFinset.card ≤ (old.map Job.job_id).length :=
          List.toFinset_card_le _
      _ = old.length := List.length_map _ _
      _ = new.length := hlen
  have heq : (new.map Job.job_id).toFinset = (old.map Job.job_id).toFinset :=
    Finset.eq_of_subset_of_card_le hsub (hcardN ▸ hcardO)
  intro o ho
  have : o.job_id ∈ (new.map Job.job_id).toFinset := by
    rw [heq, List.mem_toFinset, List.mem_map]
    exact ⟨o, ho, rfl⟩
  rw [List.mem_toFinset, List.mem_map] at this
  rcases this with ⟨n, hn, hid⟩
  exact ⟨n, hn, hid⟩

lemma collectUpdates_isSome (old new : List Job)
    (hfound : ∀ n ∈ new, ∃ o ∈ old, o.job_id = n.job_id) :
    ∃ upds, collectUpdates old new = some upds := by
  induction new with
  | nil => exact ⟨[], rfl⟩
  | cons a rest ih =>
    rcases hfound a (List.mem_cons_self a rest) with ⟨o, ho, hid⟩
    have hsome : (old.find? (fun j => j.job_id == a.job_id)).isSome := by
      rw [List.find?_isSome]
      exact ⟨o, ho, by simp [beq_iff_eq, hid]⟩
    rcases hfind : old.find? (fun j => j.job_id == a.job_id) with _ | o'
    · rw [hfind] at hsome; cases hsome
    · rcases ih (fun n hn => hfound n (List.mem_cons_of_mem a hn)) with ⟨upds', hrest⟩
      refine ⟨if jobChanged o' a then a :: upds' else upds', ?_⟩
      unfold collectUpdates
      rw [hfind, hrest]

lemma replaceFirstCard_map (now : Int) (base : List Job) (h : Job → String)
    (u : Job) (hnod : (base.map Job.job_id).Nodup)
    (hmem : u.job_id ∈ base.map Job.job_id) :
    replaceFirstCard now (base.map (fun o => (o.job_id, h o))) u
      = some (base.map (fun o => (o.job_id,
          if o.job_id = u.job_id then createJobCardHTML now u else h o))) := by
  induction base with
  | nil => cases hmem
  | cons b rest ih =>
    rw [List.map_cons, List.nodup_cons] at hnod
    by_cases hid : b.job_id = u.job_id
    · rw [List.map_cons, List.map_cons, replaceFirstCard]
      simp only [beq_iff_eq, hid, if_true]
      have htail :
          List.map (fun o => (o.job_id,
            if o.job_id = u.job_id then createJobCardHTML now u else h o)) rest
          = List.map (fun o => (o.job_id, h o)) rest := by
        apply List.map_congr_left
        intro o ho
        have hne : o.job_id ≠ u.job_id := by
          intro hcontra
          exact hnod.1 (by
            rw [hid, ← hcontra]
            exact List.mem_map_of_mem Job.job_id ho)
        rw [if_neg hne]
      rw [htail]
    · have hmem' : u.job_id ∈ rest.map Job.job_id := by
        rcases List.mem_cons.mp hmem with hcontra | hm
        · exact absurd hcontra.symm hid
        · exact hm
      rw [List.map_cons, List.map_cons, replaceFirstCard]
      simp only [beq_iff_eq, hid, if_false]
      rw [ih hnod.2 hmem']
      simp only [Option.map_some']

lemma updateSpecificCards_cons_some (now : Int) (cache : List Job)
    (dom dom1 : List (String × String)) (job : Job) (rest : List Job)
    (h : replaceFirstCard now dom job = some dom1) :
    updateSpecificCards now cache dom (job :: rest)
      = updateSpecificCards now cache dom1 rest := by
  rw [updateSpecificCards, h]

lemma updateSpecificCards_map (now : Int) (cache : List Job)
    (upds : List Job) (base : List Job) (h : Job → String)
    (hnod : (base.map Job.job_id).Nodup)
    (hmem : ∀ u ∈ upds, u.job_id ∈ base.map Job.job_id)
    (hnodU : (upds.map Job.job_id).Nodup) :
    updateSpecificCards now cache (base.map (fun o => (o.job_id, h o))) upds
      = base.map (fun o => (o.job_id,
          match upds.find? (fun u => u.job_id == o.job_id) with
          | some u => createJobCardHTML now u
          | none => h o)) := by
  induction upds generalizing h with
  | nil =>
    rw [updateSpecificCards]
    rfl
  | cons u rest ih =>
    rw [List.map_cons, List.nodup_cons] at hnodU
    rw [updateSpecificCards_cons_some now cache _ _ u rest
          (replaceFirstCard_map now base h u hnod (hmem u (List.mem_cons_self u rest))),
        ih (fun o => if o.job_id = u.job_id then createJobCardHTML now u else h o)
          (fun v hv => hmem v (List.mem_cons_of_mem u hv)) hnodU.2]
    apply List.map_congr_left
    intro o ho
    by_cases hid : u.job_id = o.job_id
    · have hnone : rest.find? (fun v => v.job_id == o.job_id) = none := by
        apply List.find?_eq_none.mpr
        intro v hv
        simp only [beq_iff_eq]
        intro hcontra
        refine absurd ?_ hnodU.1
        rw [hid, ← hcontra]
        exact List.mem_map_of_mem Job.job_id hv
      rw [hnone, List.find?_cons_of_pos _ (by simp [beq_iff_eq, hid])]
      show (o.job_id, if o.job_id = u.job_id then createJobCardHTML now u else h o)
          = (o.job_id, createJobCardHTML now u)
      rw [if_pos hid.symm]
    · rw [List.find?_cons_of_neg _ (by simp [beq_iff_eq, hid])]
      rcases hr : rest.find? (fun v => v.job_id == o.job_id) with _ | v
      · rw [hr]
        show (o.job_id, if o.job_id = u.job_id then createJobCardHTML now u else h o)
            = (o.job_id, h o)
        rw [if_neg (fun hcontra => hid hcontra.symm)]
      · rw [hr]

lemma find?_filter_of_nodup (l : List Job) (p : Job → Bool) (idv : String)
    (hnod : (l.map Job.job_id).Nodup)
    (m : Job) (hm : m ∈ l) (hid : m.job_id = idv) :
    (l.filter p).find? (fun u => u.job_id == idv)
      = if p m then some m else none := by
  induction l with
  | nil => cases hm
  | cons a rest ih =>
    rw [List.map_cons, List.nodup_cons] at hnod
    rcases List.mem_cons.mp hm with rfl | hm'
    · rw [List.filter_cons]
      by_cases hp : p m
      · rw [if_pos hp, if_pos hp,
            List.find?_cons_of_pos _ (by simp [beq_iff_eq, hid])]
      · rw [if_neg hp, if_neg (by simpa using hp)]
        apply List.find?_eq_none.mpr
        intro v hv
        have hv' : v ∈ rest := List.mem_of_mem_filter hv
        simp only [beq_iff_eq]
        intro hcontra
        refine absurd ?_ hnod.1
        rw [hid, ← hcontra]
        exact List.mem_map_of_mem Job.job_id hv'
    · have hane : ((fun u => u.job_id == idv) a) = false := by
        simp only [beq_eq_false_iff_ne, ne_eq]
        intro hcontra
        refine absurd ?_ hnod.1
        rw [hcontra, ← hid]
        exact List.mem_map_of_mem Job.job_id hm'
      rw [List.filter_cons]
      by_cases hp : p a
      · rw [if_pos hp, List.find?_cons_of_neg _ (by simp only [hane, Bool.false_eq_true, not_false_eq_true])]
        exact ih hnod.2 hm'
      · rw [if_neg hp]
        exact ih hnod.2 hm'

lemma sortJobs_sorted (l : List Job) : List.Sorted jobBefore (sortJobs l) :=
  List.sorted_insertionSort jobBefore l

lemma sortJobs_perm (l : List Job) : (sortJobs l).Perm l :=
  List.perm_insertionSort jobBefore l

lemma map_mate_ids (old new : List Job)
    (hold2new : ∀ o ∈ old, ∃ n ∈ new, n.job_id = o.job_id) :
    (old.map (newMate new)).map Job.job_id = old.map Job.job_id := by
  rw [List.map_map]
  apply List.map_congr_left
  intro o ho
  exact (newMate_mem (hold2new o ho)).2

lemma perm_new_map_mate (old new : List Job)
    (hnodO : (old.map Job.job_id).Nodup)
    (hnodN : (new.map Job.job_id).Nodup)
    (hfound : ∀ n ∈ new, ∃ o ∈ old, o.job_id = n.job_id)
    (hold2new : ∀ o ∈ old, ∃ n ∈ new, n.job_id = o.job_id) :
    new.Perm (old.map (newMate new)) := by
  apply List.perm_of_nodup_nodup_toFinset_eq
  · exact hnodN.of_map
  · exact List.Nodup.of_map Job.job_id ((map_mate_ids old new hold2new).symm ▸ hnodO)
  · apply Finset.ext
    intro x
    rw [List.mem_toFinset, List.mem_toFinset]
    constructor
    · intro hx
      rcases hfound x hx with ⟨o, ho, hid⟩
      have hxm : x = newMate new o := newMate_unique hnodN hx hid.symm
      rw [hxm]
      exact List.mem_map_of_mem (newMate new) ho
    · intro hx
      rcases List.mem_map.mp hx with ⟨o, ho, rfl⟩
      exact (newMate_mem (hold2new o ho)).1

lemma mate_created_at (old new : List Job)
    (hold2new : ∀ o ∈ old, ∃ n ∈ new, n.job_id = o.job_id)
    (hmatch : ∀ o ∈ old, ∀ n ∈ new, o.job_id = n.job_id →
        o.created_at = n.created_at ∧ o.total_files = n.total_files) :
    ∀ o ∈ old, (newMate new o).created_at = o.created_at := by
  intro o ho
  have hm := newMate_mem (hold2new o ho)
  exact (hmatch o ho (newMate new o) hm.1 hm.2.symm).1.symm

lemma pairwise_strict_of_sorted_nodup {l : List Job}
    (hs : List.Sorted jobBefore l)
    (hnd : (l.map Job.created_at).Nodup) :
    l.Pairwise (fun a b => b.created_at < a.created_at) := by
  have hne : l.Pairwise (fun a b => a.created_at ≠ b.created_at) :=
    List.pairwise_map.mp hnd
  exact (hs.and hne).imp (fun hab =>
    lt_of_le_of_ne hab.1 (fun hcontra => hab.2 hcontra.symm))

lemma sortJobs_new_eq_map_mate (old new : List Job)
    (hnodO : (old.map Job.job_id).Nodup)
    (hnodN : (new.map Job.job_id).Nodup)
    (hcre : (old.map Job.created_at).Nodup)
    (hfound : ∀ n ∈ new, ∃ o ∈ old, o.job_id = n.job_id)
    (hold2new : ∀ o ∈ old, ∃ n ∈ new, n.job_id = o.job_id)
    (hmatch : ∀ o ∈ old, ∀ n ∈ new, o.job_id = n.job_id →
        o.created_at = n.created_at ∧ o.total_files = n.total_files) :
    sortJobs new = (sortJobs old).map (newMate new) := by
  have hmc := mate_created_at old new hold2new hmatch
  have hperm : (sortJobs new).Perm ((sortJobs old).map (newMate new)) :=
    ((sortJobs_perm new).trans
      (perm_new_map_mate old new hnodO hnodN hfound hold2new)).trans
      (((sortJobs_perm old).symm).map (newMate new))
  have hcreO : ((sortJobs old).map Job.created_at).Nodup :=
    (((sortJobs_perm old).map Job.created_at).nodup_iff).mpr hcre
  have hstrictO : (sortJobs old).Pairwise (fun a b => b.created_at < a.created_at) :=
    pairwise_strict_of_sorted_nodup (sortJobs_sorted old) hcreO
  have hstrictMap :
      ((sortJobs old).map (newMate new)).Pairwise
        (fun a b => b.created_at < a.created_at) := by
    rw [List.pairwise_map]
    refine List.Pairwise.imp_of_mem ?_ hstrictO
    intro a b ha hb hab
    have ha' : a ∈ old := (sortJobs_perm old).mem_iff.mp ha
    have hb' : b ∈ old := (sortJobs_perm old).mem_iff.mp hb
    rw [hmc a ha', hmc b hb']
    exact hab
  have hcreN : ((sortJobs new).map Job.created_at).Nodup := by
    have h1 : (new.map Job.created_at).Nodup := by
      have hpm : (new.map Job.created_at).Perm (old.map Job.created_at) := by
        have := (perm_new_map_mate old new hnodO hnodN hfound hold2new).map
          Job.created_at
        refine this.trans ?_
        rw [List.map_map]
        apply List.Perm.of_eq
        apply List.map_congr_left
        intro o ho
        exact hmc o ho
      exact hpm.nodup_iff.mpr hcre
    exact (((sortJobs_perm new).map Job.created_at).nodup_iff).mpr h1
  have hstrictN : (sortJobs new).Pairwise (fun a b => b.created_at < a.created_at) :=
    pairwise_strict_of_sorted_nodup (sortJobs_sorted new) hcreN
  haveI : IsAntisymm Job (fun a b => b.created_at < a.created_at) :=
    ⟨fun a b h1 h2 => absurd (lt_trans h1 h2) (lt_irrefl _)⟩
  exact List.eq_of_perm_of_sorted hperm hstrictN hstrictMap

lemma card_eq_of_unchanged (now : Int) (o n : Job)
    (hid : n.job_id = o.job_id)
    (hchg : jobChanged o n = false)
    (hcre : o.created_at = n.created_at)
    (htot : o.total_files = n.total_files)
    (hmsgT : jobIsActive n = false → o.status = n.status → o.message = n.message) :
    createJobCardHTML now o = createJobCardHTML now n := by
  by_cases hact : jobIsActive n = true
  · rw [jobChanged, if_pos hact] at hchg
    simp only [Bool.or_eq_false_iff, bne_eq_false_iff_eq] at hchg
    obtain ⟨⟨hstat, hprog⟩, hmsg⟩ := hchg
    have : o = n := by
      cases o; cases n
      simp_all
    rw [this]
  · have hact' : jobIsActive n = false := Bool.not_eq_true _ ▸ (by simpa using hact)
    rw [jobChanged, if_neg hact] at hchg
    simp only [bne_eq_false_iff_eq] at hchg
    have hmsg : o.message = n.message := hmsgT hact' hchg
    have hcond : (n.status == "processing" || n.status == "uploading") = false := by
      rw [jobIsActive] at hact'
      simp only [Bool.or_eq_false_iff, beq_eq_false_iff_ne, ne_eq] at hact' ⊢
      exact ⟨hact'.2, hact'.1.2⟩
    simp only [createJobCardHTML, hid, hchg, hmsg, hcre, htot, hcond,
      Bool.false_eq_true, if_false]

lemma map_mate_cards_eq_render (now : Int) (old new : List Job)
    (hnodO : (old.map Job.job_id).Nodup)
    (hnodN : (new.map Job.job_id).Nodup)
    (hcre : (old.map Job.created_at).Nodup)
    (hfound : ∀ n ∈ new, ∃ o ∈ old, o.job_id = n.job_id)
    (hold2new : ∀ o ∈ old, ∃ n ∈ new, n.job_id = o.job_id)
    (hmatch : ∀ o ∈ old, ∀ n ∈ new, o.job_id = n.job_id →
        o.created_at = n.created_at ∧ o.total_files = n.total_files) :
    (sortJobs old).map (fun o => (o.job_id, createJobCardHTML now (newMate new o)))
      = renderJobsDom now new := by
  rw [renderJobsDom,
      sortJobs_new_eq_map_mate old new hnodO hnodN hcre hfound hold2new hmatch,
      List.map_map]
  apply List.map_congr_left
  intro o ho
  have ho' : o ∈ old := (sortJobs_perm old).mem_iff.mp ho
  have hidm := (newMate_mem (hold2new o ho')).2
  simp only [Function.comp_apply, hidm]

lemma patched_entry_eq (now : Int) (old new upds : List Job)
    (hnodO : (old.map Job.job_id).Nodup)
    (hnodN : (new.map Job.job_id).Nodup)
    (hold2new : ∀ o ∈ old, ∃ n ∈ new, n.job_id = o.job_id)
    (hmatch : ∀ o ∈ old, ∀ n ∈ new, o.job_id = n.job_id →
        o.created_at = n.created_at ∧ o.total_files = n.total_files)
    (hterm : ∀ o ∈ old, ∀ n ∈ new, o.job_id = n.job_id →
        jobIsActive n = false → o.status = n.status → o.message = n.message)
    (hupds : upds = new.filter (changedAgainst old)) :
    ∀ o ∈ old,
      (match upds.find? (fun u => u.job_id == o.job_id) with
       | some u => createJobCardHTML now u
       | none => createJobCardHTML now o)
      = createJobCardHTML now (newMate new o) := by
  intro o ho
  have hmm := newMate_mem (hold2new o ho)
  rw [hupds, find?_filter_of_nodup new (changedAgainst old) o.job_id hnodN
        (newMate new o) hmm.1 hmm.2]
  have hcav : changedAgainst old (newMate new o) = jobChanged o (newMate new o) := by
    unfold changedAgainst
    rw [hmm.2, find?_eq_some_self hnodO ho]
  by_cases hc : jobChanged o (newMate new o) = true
  · rw [if_pos (by rw [hcav]; exact hc)]
  · have hc' : jobChanged o (newMate new o) = false := by
      simpa using hc
    rw [if_neg (by rw [hcav, hc']; exact Bool.false_ne_true)]
    have hmt := hmatch o ho (newMate new o) hmm.1 hmm.2.symm
    exact card_eq_of_unchanged now o (newMate new o) hmm.2 hc' hmt.1 hmt.2
      (fun hact hstat => hterm o ho (newMate new o) hmm.1 hmm.2.symm hact hstat)

/-- Claim C1 as amended: for every synchronizer tick on a non-empty
snapshot, starting from a view that matches a full render of the cache,
the tick leaves the view equal to a full re-render of the new snapshot
(sorted by `created_at` descending) — provided the snapshots are
well-formed: ids are unique on both sides, `created_at` values are
distinct, records sharing an id agree on the immutable fields
`created_at` and `total_files`, and a terminal job's message does not
change while its status is unchanged. This covers the selective-patch
path as well as both full-re-render paths. -/
theorem selective_patch_equals_full_rerender
    (now : Int) (s : SyncState) (newJobs : List Job)
    (hdom : s.dom = renderJobsDom now s.jobs)
    (hne : newJobs ≠ [])
    (hnodO : (s.jobs.map Job.job_id).Nodup)
    (hnodN : (newJobs.map Job.job_id).Nodup)
    (hcre : (s.jobs.map Job.created_at).Nodup)
    (hmatch : ∀ o ∈ s.jobs, ∀ n ∈ newJobs, o.job_id = n.job_id →
        o.created_at = n.created_at ∧ o.total_files = n.total_files)
    (hterm : ∀ o ∈ s.jobs, ∀ n ∈ newJobs, o.job_id = n.job_id →
        jobIsActive n = false → o.status = n.status → o.message = n.message) :
    (updateJobsSelectively now s newJobs).dom = renderJobsDom now newJobs := by
  have h0 : (newJobs.length == 0) = false := by
    simp [beq_iff_eq, List.length_eq_zero, hne]
  unfold updateJobsSelectively
  rw [h0]
  simp only [Bool.false_eq_true, if_false]
  by_cases hlen : s.jobs.length = newJobs.length
  · have h1 : (!(s.jobs.length == newJobs.length)) = false := by
      simp [beq_iff_eq, hlen]
    rw [h1]
    simp only [Bool.false_eq_true, if_false]
    rcases hcu : collectUpdates s.jobs newJobs with _ | upds
    · rfl
    · show (if 0 < upds.length then updateSpecificCards now newJobs s.dom upds
            else s.dom) = renderJobsDom now newJobs
      have hfound := collectUpdates_found s.jobs newJobs upds hcu
      have hold2new := old_ids_in_new s.jobs newJobs hlen hnodN hfound
      have hupds := collectUpdates_eq_filter s.jobs newJobs upds hcu
      have hkey := patched_entry_eq now s.jobs newJobs upds hnodO hnodN hold2new
        hmatch hterm hupds
      have hnodSort : ((sortJobs s.jobs).map Job.job_id).Nodup :=
        ((sortJobs_perm s.jobs).map Job.job_id).nodup_iff.mpr hnodO
      rw [renderJobsDom] at hdom
      have hfinal := map_mate_cards_eq_render now s.jobs newJobs hnodO hnodN hcre
        hfound hold2new hmatch
      by_cases hupl : 0 < upds.length
      · have hmemU : ∀ u ∈ upds, u.job_id ∈ (sortJobs s.jobs).map Job.job_id := by
          intro u hu
          have hu' : u ∈ newJobs := List.mem_of_mem_filter (hupds ▸ hu)
          rcases hfound u hu' with ⟨o, ho, hid⟩
          rw [← hid]
          exact List.mem_map_of_mem Job.job_id ((sortJobs_perm s.jobs).mem_iff.mpr ho)
        have hnodU : (upds.map Job.job_id).Nodup := by
          rw [hupds]
          exact hnodN.sublist ((List.filter_sublist newJobs).map Job.job_id)
        rw [if_pos hupl, hdom,
            updateSpecificCards_map now newJobs upds (sortJobs s.jobs)
              (fun o => createJobCardHTML now o) hnodSort hmemU hnodU,
            ← hfinal]
        apply List.map_congr_left
        intro o ho
        exact congrArg (Prod.mk o.job_id)
          (hkey o ((sortJobs_perm s.jobs).mem_iff.mp ho))
      · have hupdsnil : upds = [] := List.length_eq_zero.mp (by omega)
        rw [if_neg hupl, hdom, ← hfinal]
        apply List.map_congr_left
        intro o ho
        have hk := hkey o ((sortJobs_perm s.jobs).mem_iff.mp ho)
        rw [hupdsnil] at hk
        exact congrArg (Prod.mk o.job_id) hk
  · have h1 : (!(s.jobs.length == newJobs.length)) = true := by
      simp [beq_iff_eq, hlen]
    rw [h1]
    rfl

/-- Counterexample to claim C1 as stated: a terminal (`completed`) job
whose `message` changed between snapshots takes the selective-patch path
but is not marked changed (terminal jobs compare `status` only), so its
stale card survives, while a full re-render of the new snapshot shows
the new message: the two outputs differ. -/
theorem selective_patch_not_full_rerender_cex :
    (updateJobsSelectively 0
        ⟨[⟨"j1", "completed", 0, "done", 0, 1⟩],
         renderJobsDom 0 [⟨"j1", "completed", 0, "done", 0, 1⟩], false⟩
        [⟨"j1", "completed", 0, "done!", 0, 1⟩]).dom
      ≠ renderJobsDom 0 [⟨"j1", "completed", 0, "done!", 0, 1⟩] := by
  set_option maxRecDepth 10000 in decide

/-- Closed instance of `selective_patch_equals_full_rerender`: a pending
job's message changes; the patched view equals the full re-render. -/
theorem selective_patch_equals_full_rerender_witness :
    (updateJobsSelectively 0
        ⟨[⟨"j1", "pending", 0, "working", 10, 1⟩],
         renderJobsDom 0 [⟨"j1", "pending", 0, "working", 10, 1⟩], false⟩
        [⟨"j1", "pending", 0, "almost done", 10, 1⟩]).dom
      = renderJobsDom 0 [⟨"j1", "pending", 0, "almost done", 10, 1⟩] :=
  selective_patch_equals_full_rerender 0
    ⟨[⟨"j1", "pending", 0, "working", 10, 1⟩],
     renderJobsDom 0 [⟨"j1", "pending", 0, "working", 10, 1⟩], false⟩
    [⟨"j1", "pending", 0, "almost done", 10, 1⟩]
    rfl (by decide) (by decide) (by decide) (by decide) (by decide) (by decide)

/-- Claim C6: on the per-job comparison path, an active job is marked
changed iff its status, progress or message differs from the cached
record; a non-active (in particular terminal, `completed`/`failed`) job
is marked changed iff its status differs — terminal progress/message
drift never marks a job — and the tick replaces exactly the marked
jobs' cards, leaving every other card in place. -/
theorem comparison_path_patches_exactly_changed
    (now : Int) (s : SyncState) (newJobs : List Job)
    (hdom : s.dom = renderJobsDom now s.jobs)
    (hne : newJobs ≠ [])
    (hlen : s.jobs.length = newJobs.length)
    (hnodO : (s.jobs.map Job.job_id).Nodup)
    (hnodN : (newJobs.map Job.job_id).Nodup)
    (hfound : ∀ n ∈ newJobs, ∃ o ∈ s.jobs, o.job_id = n.job_id) :
    (∀ n ∈ newJobs, ∀ o : Job,
        s.jobs.find? (fun j => j.job_id == n.job_id) = some o →
        (jobIsActive n = true →
          (changedAgainst s.jobs n = true ↔
            (o.status ≠ n.status ∨ o.progress ≠ n.progress ∨
             o.message ≠ n.message))) ∧
        (jobIsActive n = false →
          (changedAgainst s.jobs n = true ↔ o.status ≠ n.status))) ∧
    (∀ n : Job, n.status = "completed" ∨ n.status = "failed" →
        jobIsActive n = false) ∧
    (updateJobsSelectively now s newJobs).dom
      = (sortJobs s.jobs).map (fun o => (o.job_id,
          match (newJobs.filter (changedAgainst s.jobs)).find?
              (fun u => u.job_id == o.job_id) with
          | some u => createJobCardHTML now u
          | none => createJobCardHTML now o)) := by
  refine ⟨?_, ?_, ?_⟩
  · intro n hn o hfindeq
    have hca : changedAgainst s.jobs n = jobChanged o n := by
      unfold changedAgainst
      rw [hfindeq]
    constructor
    · intro hact
      rw [hca, jobChanged, if_pos hact]
      simp [bne_iff_ne]
      tauto
    · intro hact
      rw [hca, jobChanged, if_neg (by simp [hact])]
      simp [bne_iff_ne]
  · intro n hst
    rcases hst with h | h <;> simp [jobIsActive, h]
  · have h0 : (newJobs.length == 0) = false := by
      simp [beq_iff_eq, List.length_eq_zero, hne]
    unfold updateJobsSelectively
    rw [h0]
    simp only [Bool.false_eq_true, if_false]
    have h1 : (!(s.jobs.length == newJobs.length)) = false := by
      simp [beq_iff_eq, hlen]
    rw [h1]
    simp only [Bool.false_eq_true, if_false]
    rcases collectUpdates_isSome s.jobs newJobs hfound with ⟨upds, hcu⟩
    rw [hcu]
    show (if 0 < upds.length then updateSpecificCards now newJobs s.dom upds
          else s.dom) = _
    have hupds := collectUpdates_eq_filter s.jobs newJobs upds hcu
    have hnodSort : ((sortJobs s.jobs).map Job.job_id).Nodup :=
      ((sortJobs_perm s.jobs).map Job.job_id).nodup_iff.mpr hnodO
    rw [renderJobsDom] at hdom
    rw [← hupds]
    by_cases hupl : 0 < upds.length
    · have hmemU : ∀ u ∈ upds, u.job_id ∈ (sortJobs s.jobs).map Job.job_id := by
        intro u hu
        have hu' : u ∈ newJobs := List.mem_of_mem_filter (hupds ▸ hu)
        rcases hfound u hu' with ⟨o, ho, hid⟩
        rw [← hid]
        exact List.mem_map_of_mem Job.job_id ((sortJobs_perm s.jobs).mem_iff.mpr ho)
      have hnodU : (upds.map Job.job_id).Nodup := by
        rw [hupds]
        exact hnodN.sublist ((List.filter_sublist newJobs).map Job.job_id)
      rw [if_pos hupl, hdom,
          updateSpecificCards_map now newJobs upds (sortJobs s.jobs)
            (fun o => createJobCardHTML now o) hnodSort hmemU hnodU]
    · have hupdsnil : upds = [] := List.length_eq_zero.mp (by omega)
      rw [if_neg hupl, hdom, hupdsnil]
      apply List.map_congr_left
      intro o ho
      rfl

/-- Closed instance of `comparison_path_patches_exactly_changed`: in a
two-job cache, a terminal job whose progress and message drifted (status
unchanged) is marked unchanged. -/
theorem comparison_path_patches_exactly_changed_witness :
    changedAgainst
        [⟨"j1", "pending", 0, "a", 5, 1⟩, ⟨"j2", "completed", 0, "m", 3, 1⟩]
        ⟨"j2", "completed", 1, "m2", 3, 1⟩ = true ↔
      (⟨"j2", "completed", 0, "m", 3, 1⟩ : Job).status
        ≠ (⟨"j2", "completed", 1, "m2", 3, 1⟩ : Job).status :=
  ((comparison_path_patches_exactly_changed 0
      ⟨[⟨"j1", "pending", 0, "a", 5, 1⟩, ⟨"j2", "completed", 0, "m", 3, 1⟩],
       renderJobsDom 0
         [⟨"j1", "pending", 0, "a", 5, 1⟩, ⟨"j2", "completed", 0, "m", 3, 1⟩],
       false⟩
      [⟨"j1", "pending", 0, "a", 5, 1⟩, ⟨"j2", "completed", 1, "m2", 3, 1⟩]
      rfl (by decide) (by decide) (by decide) (by decide) (by decide)).1
    ⟨"j2", "completed", 1, "m2", 3, 1⟩ (by decide)
    ⟨"j2", "completed", 0, "m", 3, 1⟩ (by decide)).2 (by decide)

end TextExtractorPro
